import Mathlib

/-!
Shallow embedding of the combat core of `src/game/src/combat.rs` together with
the combat-relevant fragments of `src/game/src/character.rs`.

Conventions of the embedding:
* `Entity` (bevy's opaque entity id) is a natural number.
* The bevy component store is a `World`: an association list of records that
  carry both a `Combatant` and a `Character` component; `Query::get` becomes
  `lookup`, which returns `none` for an absent entity.
* Machine integers (`u8`, `i8`, `i16`, `u32`) become `Nat`/`Int`; the only
  places where machine behaviour matters are flagged at the definition
  (`Int.tdiv` for Rust's truncating signed division, an `Option` result where
  Rust would panic on `unwrap` or on `u8` underflow).
* Randomness is passed in explicitly: die rolls are parameters of the
  functions that draw them (`rand::thread_rng().gen_range(1..=n)` becomes an
  integer argument, with range hypotheses where a claim needs them).
* Rust's `str::to_lowercase` on the ASCII weapon identifiers becomes
  `string_to_lower`, ASCII-only lowercasing.
-/

abbrev Entity := Nat

/-- `CharacterStats` from `character.rs` (six `u8` ability scores). -/
structure CharacterStats where
  strength : Nat
  dexterity : Nat
  constitution : Nat
  intelligence : Nat
  wisdom : Nat
  charisma : Nat
deriving Repr, DecidableEq

/-- `HitPoints` from `character.rs` (`i16` current/maximum). -/
structure HitPoints where
  current : Int
  maximum : Int
deriving Repr, DecidableEq

/-- The combat-relevant fields of `Character` from `character.rs`
(equipment, inventory, spells, class and experience are UI/persistence
state that the combat core never reads). -/
structure Character where
  name : String
  level : Nat
  stats : CharacterStats
  hit_points : HitPoints
  armor_class : Int
deriving Repr, DecidableEq

/-- `EffectType` from `combat.rs`. -/
inductive EffectType
  | damage
  | healing
  | statModifier
  | stun
  | poison
deriving Repr, DecidableEq

/-- `StatusEffect` from `combat.rs` (`u8` duration, `i16` magnitude). -/
structure StatusEffect where
  name : String
  duration : Nat
  effect_type : EffectType
  magnitude : Int
deriving Repr, DecidableEq

/-- `Combatant` component from `combat.rs` (`i8` initiative, `u8` actions). -/
structure Combatant where
  initiative : Int
  is_player : Bool
  actions_remaining : Nat
  status_effects : List StatusEffect
deriving Repr, DecidableEq

/-- `CombatState` from `combat.rs`. -/
inductive CombatState
  | initiative
  | playerTurn
  | enemyTurn
  | victory
  | defeat
deriving Repr, DecidableEq

/-- `Combat` component from `combat.rs` (`u32` round/turn counters). -/
structure Combat where
  round : Nat
  turn : Nat
  combatants : List Entity
  initiative_order : List Entity
  current_combatant : Option Entity
  state : CombatState
deriving Repr, DecidableEq

/-- `AttackEvent` from `combat.rs`. -/
structure AttackEvent where
  attacker : Entity
  target : Entity
  weapon : Option String
  spell : Option String
deriving Repr, DecidableEq

/-- `DamageType` from `combat.rs`. -/
inductive DamageType
  | slashing
  | piercing
  | bludgeoning
  | fire
  | cold
  | lightning
  | acid
  | poison
  | magic
deriving Repr, DecidableEq

/-- `DamageEvent` from `combat.rs`. -/
structure DamageEvent where
  target : Entity
  damage : Int
  damage_type : DamageType
deriving Repr, DecidableEq

/-- One entry of the bevy component store: an entity holding a `Combatant`
and a `Character` component. -/
structure EntityRecord where
  id : Entity
  combatant : Combatant
  character : Character
deriving Repr, DecidableEq

/-- The bevy component store restricted to combat participants. -/
abbrev World := List EntityRecord

/-- `Query::get` / `Query::get_mut`: fetch the (first) record of an entity;
`none` models bevy's `Err` for an entity that is absent from the store. -/
def lookup (w : World) (e : Entity) : Option EntityRecord :=
  w.find? (fun r => r.id == e)

/-- In-place component mutation: rewrite the (first) record of entity `e`
with `f`; a no-op when `e` is absent. -/
def update_record (w : World) (e : Entity) (f : EntityRecord → EntityRecord) : World :=
  match w with
  | [] => []
  | r :: rs => if r.id = e then f r :: rs else r :: update_record rs e f

/-- `Character::get_dexterity_modifier` from `character.rs` (the `match` on
the `u8` score, including the defensive `_ => 0` arm). -/
def Character.get_dexterity_modifier (dexterity : Nat) : Int :=
  match dexterity with
  | 3 => -3
  | 4 | 5 => -2
  | 6 | 7 | 8 => -1
  | 9 | 10 | 11 | 12 => 0
  | 13 | 14 | 15 => 1
  | 16 | 17 => 2
  | 18 => 3
  | _ => 0

/-- `Character::get_strength_modifier` from `character.rs`. -/
def Character.get_strength_modifier (strength : Nat) : Int :=
  match strength with
  | 3 => -3
  | 4 | 5 => -2
  | 6 | 7 | 8 => -1
  | 9 | 10 | 11 | 12 => 0
  | 13 | 14 | 15 => 1
  | 16 | 17 => 2
  | 18 => 3
  | _ => 0

/-- `Character::get_constitution_modifier` from `character.rs` (note the
`-2`/`-1`/`2` values at 3, 4-5 and 18 that differ from the other tables). -/
def Character.get_constitution_modifier (constitution : Nat) : Int :=
  match constitution with
  | 3 => -2
  | 4 | 5 => -1
  | 6 | 7 | 8 => -1
  | 9 | 10 | 11 | 12 => 0
  | 13 | 14 | 15 => 1
  | 16 | 17 => 2
  | 18 => 2
  | _ => 0

/-- `Character::is_alive` from `character.rs`. -/
def Character.is_alive (c : Character) : Bool :=
  decide (0 < c.hit_points.current)

/-- `Character::take_damage` from `character.rs`: subtract, clamp at 0. -/
def Character.take_damage (c : Character) (damage : Int) : Character :=
  let current := c.hit_points.current - damage
  let current := if current < 0 then 0 else current
  { c with hit_points := { c.hit_points with current := current } }

/-- ASCII lowercasing of one character (`str::to_lowercase` restricted to
the ASCII weapon identifiers used by the combat core). -/
def char_to_lower (c : Char) : Char :=
  if 'A' ≤ c ∧ c ≤ 'Z' then Char.ofNat (c.toNat + 32) else c

/-- ASCII lowercasing of a string. -/
def string_to_lower (s : String) : String :=
  ⟨s.data.map char_to_lower⟩

/-- `is_melee_weapon` from `combat.rs`: a case-insensitive membership test
against the fixed melee set. -/
def is_melee_weapon (weapon : String) : Bool :=
  let lw := string_to_lower weapon
  lw == "sword" || lw == "axe" || lw == "mace" || lw == "dagger" ||
    lw == "staff" || lw == "hammer"

/-- The `(dice_count, dice_sides, bonus)` table at the top of
`calculate_damage` in `combat.rs`: a case-SENSITIVE match on the weapon
option, defaulting to the unarmed `(1, 4, 0)` profile. -/
def damage_profile (weapon : Option String) : Nat × Nat × Int :=
  if weapon = some "sword" then (1, 8, 0)
  else if weapon = some "axe" then (1, 6, 0)
  else if weapon = some "mace" then (1, 6, 0)
  else if weapon = some "dagger" then (1, 4, 0)
  else if weapon = some "staff" then (1, 6, 0)
  else if weapon = some "bow" then (1, 6, 0)
  else if weapon = some "crossbow" then (1, 8, 0)
  else (1, 4, 0)

/-- `calculate_damage` from `combat.rs`. `rolls i` is the value drawn for
the `i`-th damage die (`rng.gen_range(1..=dice_sides)` in the source). -/
def calculate_damage (attacker : Character) (weapon : Option String)
    (rolls : Nat → Int) : Int :=
  let p := damage_profile weapon
  let damage := (List.range p.1).foldl (fun d i => d + rolls i) p.2.2
  let damage :=
    match weapon with
    | some wn =>
      if is_melee_weapon wn then
        damage + max (Character.get_strength_modifier attacker.stats.strength) 0
      else damage
    | none => damage
  max damage 1

/-- `roll_attack` from `combat.rs`. `attack_roll` is the d20 value drawn in
the source; `rolls` feeds `calculate_damage`. `Int.tdiv` is Rust's
truncating signed division (`(attacker.level as i16 - 1) / 3`). -/
def roll_attack (attacker target : Character) (weapon : Option String)
    (attack_roll : Int) (rolls : Nat → Int) : Bool × Int :=
  let attack_bonus : Int := Int.tdiv ((attacker.level : Int) - 1) 3
  let attack_bonus :=
    match weapon with
    | some wn =>
      if is_melee_weapon wn then
        attack_bonus + Character.get_strength_modifier attacker.stats.strength
      else attack_bonus
    | none => attack_bonus
  let total_attack := attack_roll + attack_bonus
  let hit := decide (target.armor_class ≤ total_attack)
  let damage := if hit then calculate_damage attacker weapon rolls else 0
  (hit, damage)

/-- The attack total as worded by the spec (section 4.3): base bonus is a
FLOOR division `floor((level - 1) / 3)`, melee adds the strength modifier.
Kept separate from `roll_attack` so the two can be compared. -/
def spec_attack_total (level strength : Nat) (weapon : Option String)
    (attack_roll : Int) : Int :=
  attack_roll + Int.fdiv ((level : Int) - 1) 3 +
    (match weapon with
     | some wn => if is_melee_weapon wn then Character.get_strength_modifier strength else 0
     | none => 0)

/-- `Combat::new` from `combat.rs`. -/
def Combat.new : Combat :=
  { round := 1
    turn := 1
    combatants := []
    initiative_order := []
    current_combatant := none
    state := CombatState.initiative }

/-- `Combat::add_combatant` from `combat.rs`. -/
def Combat.add_combatant (c : Combat) (e : Entity) : Combat :=
  { c with combatants := c.combatants ++ [e] }

/-- The initiative assignment performed on every queried combatant inside
`Combat::roll_initiative`: one d6 (`d6 e`) plus the dexterity modifier. -/
def assign_initiative (d6 : Entity → Int) (r : EntityRecord) : EntityRecord :=
  { r with combatant := { r.combatant with
      initiative := d6 r.id +
        Character.get_dexterity_modifier r.character.stats.dexterity } }

/-- The initiative of entity `e` as read back from the store by the sort
comparator of `roll_initiative` (0 is never used: the comparator panics on
an absent entity, which the caller models separately). -/
def init_key (w : World) (e : Entity) : Int :=
  match lookup w e with
  | some r => r.combatant.initiative
  | none => 0

/-- The sort relation of `roll_initiative`: `a` may precede `b` iff `b`'s
initiative is at most `a`'s (`b_init.cmp(&a_init)`, i.e. descending). -/
def init_ge (w : World) (a b : Entity) : Prop :=
  init_key w b ≤ init_key w a

instance (w : World) : DecidableRel (init_ge w) :=
  fun a b => Int.decLe (init_key w b) (init_key w a)

instance (w : World) : IsTotal Entity (init_ge w) :=
  ⟨fun _ _ => le_total _ _⟩

instance (w : World) : IsTrans Entity (init_ge w) :=
  ⟨fun _ _ _ hab hbc => le_trans hbc hab⟩

/-- `Combat::roll_initiative` from `combat.rs`: assign every queried
combatant a new initiative, stable-sort the session's combatant list by it
(descending; Rust's `sort_by` is stable, modelled by insertion sort), set
the current combatant to the head and the state to `PlayerTurn`.
Returns `none` for the panic of the comparator's `.unwrap()`: it fires iff
the sort compares at all (two or more combatants) and some listed
combatant is absent from the store. -/
def Combat.roll_initiative (c : Combat) (w : World) (d6 : Entity → Int) :
    Option (Combat × World) :=
  let w' := w.map (assign_initiative d6)
  if 2 ≤ c.combatants.length ∧ ¬ (∀ e ∈ c.combatants, (lookup w' e).isSome = true) then
    none
  else
    let order := List.insertionSort (init_ge w') c.combatants
    some ({ c with
             initiative_order := order
             current_combatant := order.head?
             state := CombatState.playerTurn }, w')

/-- `Iterator::position` as used by `Combat::next_turn`: index of the first
occurrence of `e`. -/
def position (l : List Entity) (e : Entity) : Option Nat :=
  match l with
  | [] => none
  | x :: xs => if x = e then some 0 else (position xs e).map (· + 1)

/-- `Combat::next_turn` from `combat.rs`: step to `(index + 1) % len`,
always bump the turn counter, bump the round counter on wrap-around;
silently do nothing when the current combatant is unset or absent from the
initiative order. -/
def Combat.next_turn (c : Combat) : Combat :=
  match c.current_combatant with
  | none => c
  | some current =>
    match position c.initiative_order current with
    | none => c
    | some i =>
      let next_index := (i + 1) % c.initiative_order.length
      { c with
        current_combatant := some (c.initiative_order.getD next_index 0)
        turn := c.turn + 1
        round := if next_index = 0 then c.round + 1 else c.round }

/-- `perform_ai_action` from `combat.rs`: scan the store for the first
player combatant; if one exists, emit one `AttackEvent` whose attacker is
`enemy`, whose target is `characters.get_entity(enemy).unwrap()` — i.e.
the enemy entity itself — and whose weapon is the hard-coded `"sword"`.
`none` models the `.unwrap()` panic when `enemy` is absent. -/
def perform_ai_action (enemy : Entity) (w : World) : Option (List AttackEvent) :=
  match w.find? (fun r => r.combatant.is_player) with
  | none => some []
  | some _ =>
    match lookup w enemy with
    | none => none
    | some r => some [{ attacker := enemy, target := r.id,
                        weapon := some "sword", spell := none }]

/-- Decrement of `combatant.actions_remaining` performed by the enemy-turn
arm of `handle_combat_turn` after the AI action. -/
def decrement_actions (w : World) (e : Entity) : World :=
  update_record w e (fun r =>
    { r with combatant := { r.combatant with
        actions_remaining := r.combatant.actions_remaining - 1 } })

/-- The outcome of one `handle_combat_turn` scheduling tick. -/
structure TickResult where
  combat : Combat
  world : World
  events : List AttackEvent
deriving Repr, DecidableEq

/-- `handle_combat_turn` from `combat.rs`: one tick of the combat systems.
`none` propagates the panics of `roll_initiative`/`perform_ai_action`. -/
def handle_combat_turn (c : Combat) (w : World) (d6 : Entity → Int) :
    Option TickResult :=
  match c.state with
  | CombatState.initiative =>
    (c.roll_initiative w d6).map (fun p => ⟨p.1, p.2, []⟩)
  | CombatState.playerTurn =>
    match c.current_combatant with
    | none => some ⟨c, w, []⟩
    | some current =>
      match lookup w current with
      | none => some ⟨c, w, []⟩
      | some r =>
        if r.combatant.is_player && decide (0 < r.combatant.actions_remaining) then
          some ⟨c, w, []⟩
        else
          some ⟨c.next_turn, w, []⟩
  | CombatState.enemyTurn =>
    match c.current_combatant with
    | none => some ⟨c, w, []⟩
    | some current =>
      match lookup w current with
      | none => some ⟨c, w, []⟩
      | some r =>
        if !r.combatant.is_player && decide (0 < r.combatant.actions_remaining) then
          match perform_ai_action current w with
          | none => none
          | some evs => some ⟨c, decrement_actions w current, evs⟩
        else
          some ⟨c.next_turn, w, []⟩
  | _ => some ⟨c, w, []⟩

/-- `process_attack_events` from `combat.rs`, for one `AttackEvent`: fetch
attacker and target (skip the event if either is absent), resolve the
attack, and emit a `DamageEvent` (hard-coded `Slashing`) only on a hit. -/
def process_attack_event (w : World) (ev : AttackEvent) (attack_roll : Int)
    (rolls : Nat → Int) : List DamageEvent :=
  match lookup w ev.attacker, lookup w ev.target with
  | some ra, some rt =>
    let result := roll_attack ra.character rt.character ev.weapon attack_roll rolls
    if result.1 then
      [{ target := ev.target, damage := result.2, damage_type := DamageType.slashing }]
    else []
  | _, _ => []

/-- `process_damage_events` from `combat.rs`, for one `DamageEvent`: apply
`take_damage` to the target's character (skip when absent). The follow-up
`is_alive` check has an empty body in the source, so nothing else changes
— in particular the `Combat` value is untouched by damage processing. -/
def process_damage_event (w : World) (ev : DamageEvent) : World :=
  match lookup w ev.target with
  | some _ =>
    update_record w ev.target (fun r =>
      { r with character := r.character.take_damage ev.damage })
  | none => w

/-- The body of `update_status_effects`'s `retain_mut` for one effect list:
decrement every duration, keep an effect iff its new duration is positive.
`none` models the `u8` underflow (`duration -= 1` on 0) that a debug build
panics on; it is unreachable while 0-duration effects are never stored. -/
def tick_status_effects (effects : List StatusEffect) : Option (List StatusEffect) :=
  match effects with
  | [] => some []
  | e :: rest =>
    if e.duration = 0 then none
    else
      let d := e.duration - 1
      match tick_status_effects rest with
      | none => none
      | some rest' => some (if 0 < d then { e with duration := d } :: rest' else rest')

/-- `update_status_effects` restricted to one combatant. -/
def update_status_effects_combatant (c : Combatant) : Option Combatant :=
  (tick_status_effects c.status_effects).map
    (fun es => { c with status_effects := es })

/-- `update_status_effects` from `combat.rs`: the per-round sweep over
every combatant in the store. -/
def update_status_effects (w : World) : Option World :=
  match w with
  | [] => some []
  | r :: rs =>
    match update_status_effects_combatant r.combatant, update_status_effects rs with
    | some cb, some rest => some ({ r with combatant := cb } :: rest)
    | _, _ => none

/-! ### Helper lemmas about attack resolution -/

/-- The hit flag of `roll_attack`, written out. -/
theorem roll_attack_fst (attacker target : Character) (weapon : Option String)
    (attack_roll : Int) (rolls : Nat → Int) :
    (roll_attack attacker target weapon attack_roll rolls).1 =
      decide (target.armor_class ≤ attack_roll +
        (Int.tdiv ((attacker.level : Int) - 1) 3 +
          (match weapon with
           | some wn => if is_melee_weapon wn then
               Character.get_strength_modifier attacker.stats.strength
             else 0
           | none => 0))) := by
  cases weapon with
  | none => simp [roll_attack]
  | some wn => by_cases hm : is_melee_weapon wn <;> simp [roll_attack, hm]

/-- The damage component of `roll_attack`, written out. -/
theorem roll_attack_snd (attacker target : Character) (weapon : Option String)
    (attack_roll : Int) (rolls : Nat → Int) :
    (roll_attack attacker target weapon attack_roll rolls).2 =
      if (roll_attack attacker target weapon attack_roll rolls).1 then
        calculate_damage attacker weapon rolls
      else 0 := rfl

/-- Folding `+ rolls i` over a list starting from `init` is `init` plus the
sum of the mapped list. -/
theorem foldl_add_eq (rolls : Nat → Int) (l : List Nat) (init : Int) :
    l.foldl (fun d i => d + rolls i) init = init + (l.map rolls).sum := by
  induction l generalizing init with
  | nil => simp
  | cons x xs ih => simp [ih]; ring

/-! ### C6: the ability-modifier tables -/

/-- Claim C6 (counterexample): the claim asserts that the constitution
table diverges from the strength/dexterity table exactly at scores
{4,5,6,7,8,18}; in the code the two tables AGREE at 6 (both `-1`) and
DIVERGE at 3 (`-2` versus `-3`), so that set is wrong on both sides. -/
theorem modifier_c6_counterexample :
    Character.get_constitution_modifier 6 = Character.get_strength_modifier 6 ∧
    Character.get_constitution_modifier 3 ≠ Character.get_strength_modifier 3 := by
  decide

/-- Claim C6 (amended): over every u8 score, strength and dexterity share
one table (3 maps to -3, 4-5 to -2, 6-8 to -1, 9-12 to 0, 13-15 to 1,
16-17 to 2, 18 to 3, anything else to 0); constitution replaces the values
at 3, 4-5 and 18 by -2, -1 and 2; and the constitution table diverges from
the strength/dexterity table exactly at scores {3, 4, 5, 18}. -/
theorem modifier_c6_amended :
    ∀ s < 256,
      (Character.get_strength_modifier s = Character.get_dexterity_modifier s) ∧
      (Character.get_strength_modifier s =
        if s = 3 then -3 else if 4 ≤ s ∧ s ≤ 5 then -2 else if 6 ≤ s ∧ s ≤ 8 then -1
        else if 9 ≤ s ∧ s ≤ 12 then 0 else if 13 ≤ s ∧ s ≤ 15 then 1
        else if 16 ≤ s ∧ s ≤ 17 then 2 else if s = 18 then 3 else 0) ∧
      (Character.get_constitution_modifier s =
        if s = 3 then -2 else if 4 ≤ s ∧ s ≤ 5 then -1 else if 6 ≤ s ∧ s ≤ 8 then -1
        else if 9 ≤ s ∧ s ≤ 12 then 0 else if 13 ≤ s ∧ s ≤ 15 then 1
        else if 16 ≤ s ∧ s ≤ 17 then 2 else if s = 18 then 2 else 0) ∧
      ((Character.get_constitution_modifier s ≠ Character.get_strength_modifier s) ↔
        (s = 3 ∨ s = 4 ∨ s = 5 ∨ s = 18)) := by
  set_option maxRecDepth 4096 in decide

/-- Claim C6 (witness for the amended theorem): instance at score 4. -/
theorem modifier_c6_witness :
    4 < 256 ∧
    ((Character.get_strength_modifier 4 = Character.get_dexterity_modifier 4) ∧
      (Character.get_strength_modifier 4 =
        if 4 = 3 then -3 else if 4 ≤ 4 ∧ 4 ≤ 5 then -2 else if 6 ≤ 4 ∧ 4 ≤ 8 then -1
        else if 9 ≤ 4 ∧ 4 ≤ 12 then 0 else if 13 ≤ 4 ∧ 4 ≤ 15 then 1
        else if 16 ≤ 4 ∧ 4 ≤ 17 then 2 else if 4 = 18 then 3 else 0) ∧
      (Character.get_constitution_modifier 4 =
        if 4 = 3 then -2 else if 4 ≤ 4 ∧ 4 ≤ 5 then -1 else if 6 ≤ 4 ∧ 4 ≤ 8 then -1
        else if 9 ≤ 4 ∧ 4 ≤ 12 then 0 else if 13 ≤ 4 ∧ 4 ≤ 15 then 1
        else if 16 ≤ 4 ∧ 4 ≤ 17 then 2 else if 4 = 18 then 2 else 0) ∧
      ((Character.get_constitution_modifier 4 ≠ Character.get_strength_modifier 4) ↔
        (4 = 3 ∨ 4 = 4 ∨ 4 = 5 ∨ 4 = 18))) :=
  ⟨by decide, modifier_c6_amended 4 (by decide)⟩

/-! ### C5: attack-roll computation -/

/-- A demo player character: level 1, all scores 10, armor class 12. -/
def fighter_demo : Character :=
  { name := "F", level := 1, stats := ⟨10, 10, 10, 10, 10, 10⟩,
    hit_points := ⟨10, 10⟩, armor_class := 12 }

/-- A demo target: level 1, all scores 10, armor class 10. -/
def goblin_demo : Character :=
  { name := "G", level := 1, stats := ⟨10, 10, 10, 10, 10, 10⟩,
    hit_points := ⟨4, 4⟩, armor_class := 10 }

/-- Claim C5 (counterexample): at attacker level 0 (the level field is a
u8, so 0 is a representable input) Rust's truncating division gives
`(0 - 1) / 3 = 0` while the claim's floor gives `-1`: with a d20 roll of 5
against armor class 5 the code reports a hit although the claim's total
`5 + floor(-1/3) + 0 = 4` is strictly below the armor class. -/
theorem attack_c5_counterexample :
    (roll_attack ⟨"", 0, ⟨10, 10, 10, 10, 10, 10⟩, ⟨10, 10⟩, 12⟩
        ⟨"", 1, ⟨10, 10, 10, 10, 10, 10⟩, ⟨10, 10⟩, 5⟩ none 5 (fun _ => 1)).1 = true ∧
    spec_attack_total 0 10 none 5 < 5 := by
  decide

/-- Claim C5 (amended): for every attacker of level at least 1 (the code
truncates the signed division toward zero, which agrees with the claimed
floor only from level 1 up), the hit flag is true iff the spec's total
`d20 + floor((level-1)/3) + (strength modifier if the weapon is melee)` is
at least the target's armor class, and raising the armor class can only
turn a hit into a miss. -/
theorem attack_c5_amended (attacker target : Character) (weapon : Option String)
    (attack_roll : Int) (rolls : Nat → Int) (hlevel : 1 ≤ attacker.level) :
    ((roll_attack attacker target weapon attack_roll rolls).1 = true ↔
      target.armor_class ≤
        spec_attack_total attacker.level attacker.stats.strength weapon attack_roll) ∧
    (∀ target' : Character, target.armor_class ≤ target'.armor_class →
      (roll_attack attacker target' weapon attack_roll rolls).1 = true →
      (roll_attack attacker target weapon attack_roll rolls).1 = true) := by
  have hdiv : Int.fdiv ((attacker.level : Int) - 1) 3 =
      Int.tdiv ((attacker.level : Int) - 1) 3 :=
    Int.fdiv_eq_tdiv (by omega) (by norm_num)
  constructor
  · rw [roll_attack_fst, decide_eq_true_iff]
    unfold spec_attack_total
    rw [hdiv, add_assoc]
  · intro target' h1 h2
    rw [roll_attack_fst, decide_eq_true_iff] at h2 ⊢
    exact le_trans h1 h2

/-- Claim C5 (witness for the amended theorem): the level-1 demo fighter
attacking the demo goblin with a sword on a roll of 15. -/
theorem attack_c5_witness :
    1 ≤ fighter_demo.level ∧
    (((roll_attack fighter_demo goblin_demo (some "sword") 15 (fun _ => 3)).1 = true ↔
      goblin_demo.armor_class ≤
        spec_attack_total fighter_demo.level fighter_demo.stats.strength
          (some "sword") 15) ∧
    (∀ target' : Character, goblin_demo.armor_class ≤ target'.armor_class →
      (roll_attack fighter_demo target' (some "sword") 15 (fun _ => 3)).1 = true →
      (roll_attack fighter_demo goblin_demo (some "sword") 15 (fun _ => 3)).1 = true)) :=
  ⟨by decide, attack_c5_amended fighter_demo goblin_demo (some "sword") 15
    (fun _ => 3) (by decide)⟩

/-! ### C10: weapon-name case handling -/

/-- Claim C10 (counterexample): `"Bow"` differs from the profile key
`"bow"` only in letter case, yet the attack does NOT treat it as melee and
adds no strength modifier: with strength 18 (modifier +3) and a damage die
of 2 the damage is 2, not the 5 the claim predicts (the 1d4 fallback part
of the claim does hold, but the melee/strength part fails for the two
ranged profile keys). -/
theorem weapon_case_c10_counterexample :
    is_melee_weapon "Bow" = false ∧
    string_to_lower "Bow" = "bow" ∧ ("Bow" : String) ≠ "bow" ∧
    damage_profile (some "bow") = (1, 6, 0) ∧
    damage_profile (some "Bow") = (1, 4, 0) ∧
    calculate_damage ⟨"", 1, ⟨18, 10, 10, 10, 10, 10⟩, ⟨10, 10⟩, 12⟩
      (some "Bow") (fun _ => 2) = 2 := by
  decide

/-- Claim C10 (amended): for every weapon string that differs from a MELEE
profile key (sword, axe, mace, dagger, staff) only in letter case, the
attack adds the strength modifier to the attack bonus and the clamped
strength modifier to the damage as a melee weapon, while the damage roll
uses the unarmed (1, 4, 0) profile instead of the weapon's listed dice. -/
theorem weapon_case_c10_amended (wn : String)
    (hdiff : wn ≠ string_to_lower wn)
    (hmelee : string_to_lower wn ∈ (["sword", "axe", "mace", "dagger", "staff"] : List String)) :
    is_melee_weapon wn = true ∧
    damage_profile (some wn) = (1, 4, 0) ∧
    (∀ (attacker : Character) (rolls : Nat → Int),
      calculate_damage attacker (some wn) rolls =
        max (rolls 0 + max (Character.get_strength_modifier attacker.stats.strength) 0) 1) ∧
    (∀ (attacker target : Character) (attack_roll : Int) (rolls : Nat → Int),
      (roll_attack attacker target (some wn) attack_roll rolls).1 =
        decide (target.armor_class ≤ attack_roll +
          (Int.tdiv ((attacker.level : Int) - 1) 3 +
            Character.get_strength_modifier attacker.stats.strength))) := by
  have hne : ∀ j ∈ (["sword", "axe", "mace", "dagger", "staff", "bow", "crossbow"] :
      List String), wn ≠ j := by
    intro j hj he
    subst he
    fin_cases hj <;> exact hdiff (by decide)
  have hmel : is_melee_weapon wn = true := by
    simp only [List.mem_cons, List.not_mem_nil, or_false] at hmelee
    rcases hmelee with h | h | h | h | h <;> simp [is_melee_weapon, h]
  have hprof : damage_profile (some wn) = (1, 4, 0) := by
    simp [damage_profile, hne "sword" (by decide), hne "axe" (by decide),
      hne "mace" (by decide), hne "dagger" (by decide), hne "staff" (by decide),
      hne "bow" (by decide), hne "crossbow" (by decide)]
  refine ⟨hmel, hprof, ?_, ?_⟩
  · intro attacker rolls
    simp [calculate_damage, hprof, hmel, foldl_add_eq, List.range_succ]
  · intro attacker target attack_roll rolls
    rw [roll_attack_fst]
    simp [hmel]

/-- Claim C10 (witness for the amended theorem): the string `"Sword"`. -/
theorem weapon_case_c10_witness :
    ("Sword" : String) ≠ string_to_lower "Sword" ∧
    string_to_lower "Sword" ∈ (["sword", "axe", "mace", "dagger", "staff"] : List String) ∧
    (is_melee_weapon "Sword" = true ∧
     damage_profile (some "Sword") = (1, 4, 0) ∧
     (∀ (attacker : Character) (rolls : Nat → Int),
       calculate_damage attacker (some "Sword") rolls =
         max (rolls 0 + max (Character.get_strength_modifier attacker.stats.strength) 0) 1) ∧
     (∀ (attacker target : Character) (attack_roll : Int) (rolls : Nat → Int),
       (roll_attack attacker target (some "Sword") attack_roll rolls).1 =
         decide (target.armor_class ≤ attack_roll +
           (Int.tdiv ((attacker.level : Int) - 1) 3 +
             Character.get_strength_modifier attacker.stats.strength)))) :=
  ⟨by decide, by decide, weapon_case_c10_amended "Sword" (by decide) (by decide)⟩

/-! ### C4: damage computation and damage events -/

/-- `calculate_damage`, written as dice sum + fixed bonus + clamped melee
strength bonus, floored at 1. -/
theorem calculate_damage_eq (attacker : Character) (weapon : Option String)
    (rolls : Nat → Int) :
    calculate_damage attacker weapon rolls =
      max (((List.range (damage_profile weapon).1).map rolls).sum +
        (damage_profile weapon).2.2 +
        (match weapon with
         | some wn => if is_melee_weapon wn then
             max (Character.get_strength_modifier attacker.stats.strength) 0
           else 0
         | none => 0)) 1 := by
  cases weapon with
  | none =>
    simp only [calculate_damage, foldl_add_eq, add_zero]
    congr 1
    ring
  | some wn =>
    by_cases hm : is_melee_weapon wn <;>
      simp only [calculate_damage, foldl_add_eq, hm, Bool.false_eq_true, if_true,
        if_false, add_zero] <;>
      (congr 1; ring)

/-- Claim C4: on a miss the damage is 0 and no damage event is emitted; on
a hit the damage is the profile's dice roll plus the profile's fixed bonus
plus, for melee weapons only, the strength modifier clamped at 0, floored
at 1 (so a hit deals at least 1); the dagger profile is (1, 4, 0) with its
raw die in [1, 4]; any weapon option outside the seven profile keys falls
back to the unarmed (1, 4, 0) profile. -/
theorem damage_c4_spec :
    (∀ (attacker target : Character) (weapon : Option String) (attack_roll : Int)
        (rolls : Nat → Int),
      (roll_attack attacker target weapon attack_roll rolls).1 = false →
      (roll_attack attacker target weapon attack_roll rolls).2 = 0) ∧
    (∀ (w : World) (ev : AttackEvent) (attack_roll : Int) (rolls : Nat → Int)
        (ra rt : EntityRecord),
      lookup w ev.attacker = some ra → lookup w ev.target = some rt →
      (roll_attack ra.character rt.character ev.weapon attack_roll rolls).1 = false →
      process_attack_event w ev attack_roll rolls = []) ∧
    (∀ (w : World) (ev : AttackEvent) (attack_roll : Int) (rolls : Nat → Int)
        (dev : DamageEvent),
      dev ∈ process_attack_event w ev attack_roll rolls →
      ∃ ra rt, lookup w ev.attacker = some ra ∧ lookup w ev.target = some rt ∧
        (roll_attack ra.character rt.character ev.weapon attack_roll rolls).1 = true ∧
        dev.damage = (roll_attack ra.character rt.character ev.weapon attack_roll rolls).2) ∧
    (∀ (attacker target : Character) (weapon : Option String) (attack_roll : Int)
        (rolls : Nat → Int),
      (roll_attack attacker target weapon attack_roll rolls).1 = true →
      (roll_attack attacker target weapon attack_roll rolls).2 =
        max (((List.range (damage_profile weapon).1).map rolls).sum +
          (damage_profile weapon).2.2 +
          (match weapon with
           | some wn => if is_melee_weapon wn then
               max (Character.get_strength_modifier attacker.stats.strength) 0
             else 0
           | none => 0)) 1 ∧
      1 ≤ (roll_attack attacker target weapon attack_roll rolls).2) ∧
    (∀ (weapon : Option String),
      weapon ∉ ([some "sword", some "axe", some "mace", some "dagger", some "staff",
                 some "bow", some "crossbow"] : List (Option String)) →
      damage_profile weapon = (1, 4, 0)) ∧
    (damage_profile (some "dagger") = (1, 4, 0) ∧
     ∀ rolls : Nat → Int, (∀ i, 1 ≤ rolls i ∧ rolls i ≤ 4) →
       1 ≤ ((List.range (damage_profile (some "dagger")).1).map rolls).sum ∧
       ((List.range (damage_profile (some "dagger")).1).map rolls).sum ≤ 4) := by
  refine ⟨?_, ?_, ?_, ?_, ?_, ?_⟩
  · intro attacker target weapon attack_roll rolls h
    rw [roll_attack_snd, h]
    simp
  · intro w ev attack_roll rolls ra rt ha ht h
    simp [process_attack_event, ha, ht, h]
  · intro w ev attack_roll rolls dev hmem
    unfold process_attack_event at hmem
    cases ha : lookup w ev.attacker with
    | none => rw [ha] at hmem; simp at hmem
    | some ra =>
      cases ht : lookup w ev.target with
      | none => rw [ha, ht] at hmem; simp at hmem
      | some rt =>
        rw [ha, ht] at hmem
        by_cases hr : (roll_attack ra.character rt.character ev.weapon attack_roll rolls).1
        · simp only [hr, if_true, List.mem_singleton] at hmem
          exact ⟨ra, rt, rfl, rfl, hr, by rw [hmem]⟩
        · simp [hr] at hmem
  · intro attacker target weapon attack_roll rolls h
    rw [roll_attack_snd, h]
    constructor
    · rw [if_pos rfl]
      exact calculate_damage_eq attacker weapon rolls
    · rw [if_pos rfl, calculate_damage_eq]
      exact le_max_right _ _
  · intro weapon hw
    simp only [List.mem_cons, List.not_mem_nil, or_false, not_or] at hw
    obtain ⟨h1, h2, h3, h4, h5, h6, h7⟩ := hw
    simp [damage_profile, h1, h2, h3, h4, h5, h6, h7]
  · refine ⟨by decide, ?_⟩
    intro rolls h
    have hp : (damage_profile (some "dagger")).1 = 1 := by decide
    rw [hp]
    simp only [List.range_succ, List.range_zero, List.nil_append, List.map_cons,
      List.map_nil, List.sum_cons, List.sum_nil, add_zero]
    exact ⟨(h 0).1, (h 0).2⟩

/-- Claim C4 (witness): the demo fighter and goblin with a dagger; a d20
of 2 misses (damage 0), a d20 of 15 hits for max(3 + 0 + 0, 1) = 3, and an
unknown weapon string falls back to the unarmed profile. -/
theorem damage_c4_witness :
    (roll_attack fighter_demo goblin_demo (some "dagger") 2 (fun _ => 3)).1 = false ∧
    (roll_attack fighter_demo goblin_demo (some "dagger") 2 (fun _ => 3)).2 = 0 ∧
    (roll_attack fighter_demo goblin_demo (some "dagger") 15 (fun _ => 3)).1 = true ∧
    (roll_attack fighter_demo goblin_demo (some "dagger") 15 (fun _ => 3)).2 =
      max (((List.range (damage_profile (some "dagger")).1).map (fun _ => (3 : Int))).sum +
        (damage_profile (some "dagger")).2.2 +
        (if is_melee_weapon "dagger" then
          max (Character.get_strength_modifier fighter_demo.stats.strength) 0
         else 0)) 1 ∧
    1 ≤ (roll_attack fighter_demo goblin_demo (some "dagger") 15 (fun _ => 3)).2 ∧
    damage_profile (some "club") = (1, 4, 0) ∧
    (1 ≤ ((List.range (damage_profile (some "dagger")).1).map (fun _ => (3 : Int))).sum ∧
     ((List.range (damage_profile (some "dagger")).1).map (fun _ => (3 : Int))).sum ≤ 4) :=
  ⟨by decide,
   damage_c4_spec.1 fighter_demo goblin_demo (some "dagger") 2 (fun _ => 3) (by decide),
   by decide,
   (damage_c4_spec.2.2.2.1 fighter_demo goblin_demo (some "dagger") 15 (fun _ => 3)
     (by decide)).1,
   (damage_c4_spec.2.2.2.1 fighter_demo goblin_demo (some "dagger") 15 (fun _ => 3)
     (by decide)).2,
   damage_c4_spec.2.2.2.2.1 (some "club") (by decide),
   damage_c4_spec.2.2.2.2.2.2 (fun _ => 3) (by intro i; constructor <;> norm_num)⟩

/-! ### C9: the status-effect sweep -/

/-- `tick_status_effects` on a list of positive durations: keep exactly
the effects whose duration was at least 2, each decremented. -/
theorem tick_status_effects_eq (effects : List StatusEffect)
    (h : ∀ e ∈ effects, 1 ≤ e.duration) :
    tick_status_effects effects =
      some ((effects.filter (fun e => decide (2 ≤ e.duration))).map
        (fun e => { e with duration := e.duration - 1 })) := by
  induction effects with
  | nil => rfl
  | cons e rest ih =>
    have h1 : 1 ≤ e.duration := h e (List.mem_cons_self e rest)
    have hne : ¬ e.duration = 0 := by omega
    have ih' := ih (fun x hx => h x (List.mem_cons_of_mem e hx))
    by_cases h2 : 2 ≤ e.duration
    · have hpos : 0 < e.duration - 1 := by omega
      simp [tick_status_effects, hne, ih', h2, hpos, List.filter_cons]
    · have hpos : ¬ 0 < e.duration - 1 := by omega
      simp [tick_status_effects, hne, ih', h2, hpos, List.filter_cons]

/-- Claim C9: when every stored duration is positive (the invariant the
ledger maintains), the per-round sweep succeeds, and on every combatant it
decrements each duration by 1 and removes exactly those effects whose
duration has reached 0 after the decrement (i.e. it keeps exactly the
effects whose old duration was at least 2, decremented); consequently an
effect of duration 1 disappears after one pass and no stored effect has
duration 0 after a sweep. -/
theorem status_c9_spec (w : World)
    (h : ∀ r ∈ w, ∀ eff ∈ r.combatant.status_effects, 1 ≤ eff.duration) :
    ∃ w', update_status_effects w = some w' ∧
      w' = w.map (fun r => { r with combatant := { r.combatant with
        status_effects :=
          (r.combatant.status_effects.filter (fun eff => decide (2 ≤ eff.duration))).map
            (fun eff => { eff with duration := eff.duration - 1 }) } }) ∧
      (∀ r ∈ w', ∀ eff ∈ r.combatant.status_effects, 1 ≤ eff.duration) := by
  have hall : ∀ (v : World), (∀ r ∈ v, ∀ eff ∈ r.combatant.status_effects, 1 ≤ eff.duration) →
      update_status_effects v = some (v.map (fun r => { r with combatant := { r.combatant with
        status_effects :=
          (r.combatant.status_effects.filter (fun eff => decide (2 ≤ eff.duration))).map
            (fun eff => { eff with duration := eff.duration - 1 }) } })) := by
    intro v hv
    induction v with
    | nil => rfl
    | cons r rs ih =>
      have hr := hv r (List.mem_cons_self r rs)
      have ih' := ih (fun x hx => hv x (List.mem_cons_of_mem r hx))
      simp [update_status_effects, update_status_effects_combatant,
        tick_status_effects_eq r.combatant.status_effects hr, ih']
  refine ⟨_, hall w h, rfl, ?_⟩
  intro r hr eff heff
  obtain ⟨r0, _, rfl⟩ := List.mem_map.mp hr
  obtain ⟨e0, he0, rfl⟩ := List.mem_map.mp heff
  have := List.of_mem_filter he0
  have h2 : 2 ≤ e0.duration := of_decide_eq_true this
  show 1 ≤ e0.duration - 1
  omega

/-- Claim C9 (witness): one combatant holding effects of durations 1 and 3;
the sweep keeps only the second, decremented to 2. -/
theorem status_c9_witness :
    (∀ r ∈ ([⟨7, ⟨2, false, 1, [⟨"p", 1, EffectType.poison, 1⟩, ⟨"s", 3, EffectType.stun, 0⟩]⟩,
        ⟨"E", 1, ⟨10, 10, 10, 10, 10, 10⟩, ⟨5, 5⟩, 10⟩⟩] : World),
      ∀ eff ∈ r.combatant.status_effects, 1 ≤ eff.duration) ∧
    ∃ w', update_status_effects
        ([⟨7, ⟨2, false, 1, [⟨"p", 1, EffectType.poison, 1⟩, ⟨"s", 3, EffectType.stun, 0⟩]⟩,
          ⟨"E", 1, ⟨10, 10, 10, 10, 10, 10⟩, ⟨5, 5⟩, 10⟩⟩] : World) = some w' ∧
      w' = ([⟨7, ⟨2, false, 1, [⟨"p", 1, EffectType.poison, 1⟩, ⟨"s", 3, EffectType.stun, 0⟩]⟩,
          ⟨"E", 1, ⟨10, 10, 10, 10, 10, 10⟩, ⟨5, 5⟩, 10⟩⟩] : World).map
        (fun r => { r with combatant := { r.combatant with
          status_effects :=
            (r.combatant.status_effects.filter (fun eff => decide (2 ≤ eff.duration))).map
              (fun eff => { eff with duration := eff.duration - 1 }) } }) ∧
      (∀ r ∈ w', ∀ eff ∈ r.combatant.status_effects, 1 ≤ eff.duration) :=
  ⟨by decide, status_c9_spec _ (by decide)⟩

/-! ### C8: turn advancement -/

/-- `position` finds no index exactly for absent elements. -/
theorem position_eq_none_iff (l : List Entity) (e : Entity) :
    position l e = none ↔ e ∉ l := by
  induction l with
  | nil => simp [position]
  | cons x xs ih =>
    by_cases hx : x = e
    · simp [position, hx]
    · simp only [position, hx, if_false, Option.map_eq_none', ih, List.mem_cons]
      constructor
      · intro hn hm
        rcases hm with hm | hm
        · exact hx hm.symm
        · exact hn hm
      · intro hn hm
        exact hn (Or.inr hm)

/-- Claim C8: with a current combatant found at first index `i` of the
initiative order, `next_turn` moves to index `(i+1) mod len`, always bumps
the turn counter, and bumps the round counter exactly when the new index
is 0; a one-element order always returns to the same combatant and bumps
the round; an unset or absent current combatant makes it a silent no-op. -/
theorem next_turn_c8_spec (c : Combat) :
    (∀ (e : Entity) (i : Nat), c.current_combatant = some e →
      position c.initiative_order e = some i →
      c.next_turn =
        { c with
          current_combatant :=
            some (c.initiative_order.getD ((i + 1) % c.initiative_order.length) 0),
          turn := c.turn + 1,
          round :=
            if (i + 1) % c.initiative_order.length = 0 then c.round + 1 else c.round }) ∧
    (∀ e : Entity, c.current_combatant = some e → e ∈ c.initiative_order →
      ∃ i, position c.initiative_order e = some i) ∧
    (∀ e : Entity, c.current_combatant = some e → c.initiative_order = [e] →
      c.next_turn =
        { c with
          current_combatant := some e, turn := c.turn + 1, round := c.round + 1 }) ∧
    (c.current_combatant = none → c.next_turn = c) ∧
    (∀ e : Entity, c.current_combatant = some e → e ∉ c.initiative_order →
      c.next_turn = c) := by
  refine ⟨?_, ?_, ?_, ?_, ?_⟩
  · intro e i hcur hpos
    simp [Combat.next_turn, hcur, hpos]
  · intro e hcur hmem
    rcases ho : position c.initiative_order e with _ | i
    · exact absurd ((position_eq_none_iff _ _).mp ho) (by simp [hmem])
    · exact ⟨i, rfl⟩
  · intro e hcur horder
    simp [Combat.next_turn, hcur, horder, position]
  · intro hcur
    simp [Combat.next_turn, hcur]
  · intro e hcur habs
    simp [Combat.next_turn, hcur, (position_eq_none_iff _ _).mpr habs]

/-- Claim C8 (witness): a two-entity order stepping 0 to 1 without a round
bump, a one-entity order bumping the round, and the no-op cases. -/
theorem next_turn_c8_witness :
    position ([0, 1] : List Entity) 0 = some 0 ∧
    Combat.next_turn ⟨1, 1, [0, 1], [0, 1], some 0, CombatState.playerTurn⟩ =
      ⟨1, 2, [0, 1], [0, 1], some 1, CombatState.playerTurn⟩ ∧
    Combat.next_turn ⟨1, 1, [5], [5], some 5, CombatState.playerTurn⟩ =
      ⟨2, 2, [5], [5], some 5, CombatState.playerTurn⟩ ∧
    Combat.next_turn ⟨1, 1, [0, 1], [0, 1], none, CombatState.playerTurn⟩ =
      ⟨1, 1, [0, 1], [0, 1], none, CombatState.playerTurn⟩ ∧
    Combat.next_turn ⟨1, 1, [0, 1], [0, 1], some 9, CombatState.playerTurn⟩ =
      ⟨1, 1, [0, 1], [0, 1], some 9, CombatState.playerTurn⟩ :=
  ⟨by decide,
   ((next_turn_c8_spec ⟨1, 1, [0, 1], [0, 1], some 0, CombatState.playerTurn⟩).1
     0 0 rfl (by decide)).trans (by decide),
   ((next_turn_c8_spec ⟨1, 1, [5], [5], some 5, CombatState.playerTurn⟩).2.2.1
     5 rfl rfl).trans (by decide),
   (next_turn_c8_spec ⟨1, 1, [0, 1], [0, 1], none, CombatState.playerTurn⟩).2.2.2.1 rfl,
   (next_turn_c8_spec ⟨1, 1, [0, 1], [0, 1], some 9, CombatState.playerTurn⟩).2.2.2.2
     9 rfl (by decide)⟩

/-! ### C7: initiative rolling -/

/-- Looking an entity up after the initiative-assignment pass is the
assignment applied to the original record (ids are untouched). -/
theorem lookup_map_assign (w : World) (d6 : Entity → Int) (e : Entity) :
    lookup (w.map (assign_initiative d6)) e =
      (lookup w e).map (assign_initiative d6) := by
  unfold lookup
  rw [List.find?_map]
  rfl

/-- Inserting `x` into `l` keeps the `p`-filtered sublist intact (with `x`
in front when `p x` holds), provided `x` precedes every `p`-element. -/
theorem filter_orderedInsert {α : Type} (r : α → α → Prop) [DecidableRel r]
    (p : α → Bool) (x : α) (l : List α)
    (hx : ∀ b, p x = true → p b = true → r x b) :
    (List.orderedInsert r x l).filter p =
      if p x then x :: l.filter p else l.filter p := by
  induction l with
  | nil => simp [List.orderedInsert, List.filter_cons]
  | cons y ys ih =>
    by_cases hr : r x y
    · rw [List.orderedInsert, if_pos hr]
      by_cases hp : p x <;> simp [List.filter_cons, hp]
    · rw [List.orderedInsert, if_neg hr]
      by_cases hp : p x
      · have hpy : p y = false := by
          by_contra h
          exact hr (hx y hp (by simpa using h))
        simp [List.filter_cons, hpy, ih, hp]
      · simp [List.filter_cons, ih, hp]

/-- Insertion sort is stable: it preserves the `p`-filtered sublist for
any predicate whose satisfying elements are pairwise tied. -/
theorem filter_insertionSort {α : Type} (r : α → α → Prop) [DecidableRel r]
    (p : α → Bool) (hp : ∀ a b, p a = true → p b = true → r a b) (l : List α) :
    (List.insertionSort r l).filter p = l.filter p := by
  induction l with
  | nil => rfl
  | cons x xs ih =>
    rw [List.insertionSort, filter_orderedInsert r p x _ (fun b hx hb => hp x b hx hb),
      ih, List.filter_cons]

/-- Claim C7: when every listed combatant is present, `roll_initiative`
succeeds, assigns every queried combatant an initiative of its d6 roll
plus its dexterity modifier, produces the initiative order as a stable
descending sort of the combatant list by initiative (a permutation that
is sorted descending and preserves, for every initiative value, the
original relative order of the tied entities), sets the current combatant
to the head of the order, and moves the phase to player-turn; on an empty
combatant list the order is empty and the current combatant stays unset. -/
theorem initiative_c7_spec (c : Combat) (w : World) (d6 : Entity → Int)
    (_hd6 : ∀ e, 1 ≤ d6 e ∧ d6 e ≤ 6)
    (hpres : ∀ e ∈ c.combatants, (lookup w e).isSome = true) :
    ∃ c' w', c.roll_initiative w d6 = some (c', w') ∧
      w' = w.map (assign_initiative d6) ∧
      (∀ (e : Entity) (r : EntityRecord), lookup w e = some r →
        lookup w' e = some { r with combatant := { r.combatant with
          initiative := d6 e +
            Character.get_dexterity_modifier r.character.stats.dexterity } }) ∧
      c'.initiative_order.Perm c.combatants ∧
      c'.initiative_order.Sorted (init_ge w') ∧
      (∀ k : Int, c'.initiative_order.filter (fun e => init_key w' e == k) =
        c.combatants.filter (fun e => init_key w' e == k)) ∧
      c'.current_combatant = c'.initiative_order.head? ∧
      c'.state = CombatState.playerTurn ∧
      c'.round = c.round ∧ c'.turn = c.turn ∧ c'.combatants = c.combatants ∧
      (c.combatants = [] → c'.initiative_order = [] ∧ c'.current_combatant = none) := by
  have hkey : ∀ e ∈ c.combatants,
      (lookup (w.map (assign_initiative d6)) e).isSome = true := by
    intro e he
    rw [lookup_map_assign]
    have hp := hpres e he
    cases hl : lookup w e with
    | none => rw [hl] at hp; simp at hp
    | some r => simp
  have hcond : ¬ (2 ≤ c.combatants.length ∧
      ¬ (∀ e ∈ c.combatants, (lookup (w.map (assign_initiative d6)) e).isSome = true)) :=
    fun h => h.2 hkey
  have hmain : c.roll_initiative w d6 = some ({ c with
      initiative_order :=
        List.insertionSort (init_ge (w.map (assign_initiative d6))) c.combatants,
      current_combatant :=
        (List.insertionSort (init_ge (w.map (assign_initiative d6))) c.combatants).head?,
      state := CombatState.playerTurn }, w.map (assign_initiative d6)) := by
    simp only [Combat.roll_initiative]
    rw [if_neg hcond]
  refine ⟨_, _, hmain, rfl, ?_, ?_, ?_, ?_, rfl, rfl, rfl, rfl, rfl, ?_⟩
  · intro e r hr
    have hid : r.id = e := by simpa using List.find?_some hr
    rw [lookup_map_assign, hr]
    simp [assign_initiative, hid]
  · exact List.perm_insertionSort _ _
  · exact List.sorted_insertionSort _ _
  · intro k
    refine filter_insertionSort _ _ (fun a b ha hb => ?_) _
    have ha' : init_key (w.map (assign_initiative d6)) a = k := by simpa using ha
    have hb' : init_key (w.map (assign_initiative d6)) b = k := by simpa using hb
    unfold init_ge
    rw [ha', hb']
  · intro h
    constructor
    · show List.insertionSort _ c.combatants = _
      rw [h]
      rfl
    · show (List.insertionSort _ c.combatants).head? = _
      rw [h]
      rfl

/-- A demo die that rolls 6 for entity 1 and 1 for everyone else. -/
def d6_demo : Entity → Int := fun e => if e = 1 then 6 else 1

/-- A demo store: player entity 0 (10 hp) and enemy entity 1 (1 hp). -/
def world_demo : World :=
  [⟨0, ⟨0, true, 1, []⟩, ⟨"H", 1, ⟨10, 10, 10, 10, 10, 10⟩, ⟨10, 10⟩, 12⟩⟩,
   ⟨1, ⟨0, false, 1, []⟩, ⟨"O", 1, ⟨10, 10, 10, 10, 10, 10⟩, ⟨1, 1⟩, 10⟩⟩]

/-- A fresh demo session over entities 0 and 1. -/
def combat_demo : Combat :=
  ((Combat.new).add_combatant 0).add_combatant 1

/-- Claim C7 (witness): the demo session; the enemy rolls 6 and leads the
order, the phase moves to player-turn. -/
theorem initiative_c7_witness :
    (∀ e, 1 ≤ d6_demo e ∧ d6_demo e ≤ 6) ∧
    (∀ e ∈ combat_demo.combatants, (lookup world_demo e).isSome = true) ∧
    (∃ c' w', combat_demo.roll_initiative world_demo d6_demo = some (c', w') ∧
      w' = world_demo.map (assign_initiative d6_demo) ∧
      (∀ (e : Entity) (r : EntityRecord), lookup world_demo e = some r →
        lookup w' e = some { r with combatant := { r.combatant with
          initiative := d6_demo e +
            Character.get_dexterity_modifier r.character.stats.dexterity } }) ∧
      c'.initiative_order.Perm combat_demo.combatants ∧
      c'.initiative_order.Sorted (init_ge w') ∧
      (∀ k : Int, c'.initiative_order.filter (fun e => init_key w' e == k) =
        combat_demo.combatants.filter (fun e => init_key w' e == k)) ∧
      c'.current_combatant = c'.initiative_order.head? ∧
      c'.state = CombatState.playerTurn ∧
      c'.round = combat_demo.round ∧ c'.turn = combat_demo.turn ∧
      c'.combatants = combat_demo.combatants ∧
      (combat_demo.combatants = [] → c'.initiative_order = [] ∧
        c'.current_combatant = none)) :=
  ⟨fun e => by unfold d6_demo; split <;> exact ⟨by norm_num, by norm_num⟩,
   by decide,
   initiative_c7_spec combat_demo world_demo d6_demo
     (fun e => by unfold d6_demo; split <;> exact ⟨by norm_num, by norm_num⟩)
     (by decide)⟩

/-! ### C3: missing-entity behaviour -/

/-- Presence is unchanged by the initiative-assignment pass. -/
theorem lookup_map_isSome (w : World) (d6 : Entity → Int) (e : Entity) :
    (lookup (w.map (assign_initiative d6)) e).isSome = (lookup w e).isSome := by
  rw [lookup_map_assign]
  cases lookup w e <;> simp

/-- Claim C3 (counterexample): `roll_initiative` on a session listing
combatants 0 and 1 over a store that only holds entity 0 panics (the sort
comparator's `.unwrap()`), modelled by the `none` result — it is not the
claimed silent skip. -/
theorem missing_entity_c3_counterexample :
    Combat.roll_initiative ⟨1, 1, [0, 1], [], none, CombatState.initiative⟩
      [⟨0, ⟨0, true, 1, []⟩, ⟨"H", 1, ⟨10, 10, 10, 10, 10, 10⟩, ⟨10, 10⟩, 12⟩⟩]
      (fun _ => 3) = none := by
  decide

/-- Claim C3 (amended): the turn handler (in either acting phase), attack
processing and damage processing skip silently when the referenced entity
is absent, and `roll_initiative` succeeds when every listed combatant is
present; but `roll_initiative` panics when it lists at least two
combatants and one is absent, and `perform_ai_action` panics when the
acting enemy is absent while some player combatant exists. -/
theorem missing_entity_c3_amended :
    (∀ (c : Combat) (w : World) (d6 : Entity → Int) (e : Entity),
      c.state = CombatState.playerTurn → c.current_combatant = some e →
      lookup w e = none → handle_combat_turn c w d6 = some ⟨c, w, []⟩) ∧
    (∀ (c : Combat) (w : World) (d6 : Entity → Int) (e : Entity),
      c.state = CombatState.enemyTurn → c.current_combatant = some e →
      lookup w e = none → handle_combat_turn c w d6 = some ⟨c, w, []⟩) ∧
    (∀ (w : World) (ev : AttackEvent) (attack_roll : Int) (rolls : Nat → Int),
      lookup w ev.attacker = none ∨ lookup w ev.target = none →
      process_attack_event w ev attack_roll rolls = []) ∧
    (∀ (w : World) (ev : DamageEvent), lookup w ev.target = none →
      process_damage_event w ev = w) ∧
    (∀ (c : Combat) (w : World) (d6 : Entity → Int),
      (∀ e ∈ c.combatants, (lookup w e).isSome = true) →
      (c.roll_initiative w d6).isSome = true) ∧
    (∀ (c : Combat) (w : World) (d6 : Entity → Int),
      2 ≤ c.combatants.length → (∃ e ∈ c.combatants, lookup w e = none) →
      c.roll_initiative w d6 = none) ∧
    (∀ (e : Entity) (w : World) (r : EntityRecord),
      r ∈ w → r.combatant.is_player = true → lookup w e = none →
      perform_ai_action e w = none) := by
  refine ⟨?_, ?_, ?_, ?_, ?_, ?_, ?_⟩
  · intro c w d6 e hstate hcur hlook
    simp [handle_combat_turn, hstate, hcur, hlook]
  · intro c w d6 e hstate hcur hlook
    simp [handle_combat_turn, hstate, hcur, hlook]
  · intro w ev attack_roll rolls h
    rcases h with h | h
    · cases h2 : lookup w ev.target <;> simp [process_attack_event, h, h2]
    · cases h2 : lookup w ev.attacker <;> simp [process_attack_event, h, h2]
  · intro w ev h
    simp [process_damage_event, h]
  · intro c w d6 hp
    have hkey : ∀ e ∈ c.combatants,
        (lookup (w.map (assign_initiative d6)) e).isSome = true := by
      intro e he
      rw [lookup_map_isSome]
      exact hp e he
    simp only [Combat.roll_initiative]
    rw [if_neg (fun h => h.2 hkey)]
    simp
  · intro c w d6 hlen hmiss
    obtain ⟨e, he, hnone⟩ := hmiss
    have hfail : ¬ ∀ e ∈ c.combatants,
        (lookup (w.map (assign_initiative d6)) e).isSome = true := by
      intro hall
      have := hall e he
      rw [lookup_map_isSome, hnone] at this
      simp at this
    simp only [Combat.roll_initiative]
    rw [if_pos ⟨hlen, hfail⟩]
  · intro e w r hr hpl hnone
    have hfind : w.find? (fun r => r.combatant.is_player) ≠ none := by
      rw [Ne, List.find?_eq_none]
      push_neg
      exact ⟨r, hr, by simp [hpl]⟩
    cases hf : w.find? (fun r => r.combatant.is_player) with
    | none => exact absurd hf hfind
    | some r0 => simp [perform_ai_action, hf, hnone]

/-- Claim C3 (witness for the amended theorem): concrete skips over the
demo store (entities 5 and 9 are absent from it) plus the two panics. -/
theorem missing_entity_c3_witness :
    handle_combat_turn ⟨1, 1, [0], [0], some 5, CombatState.playerTurn⟩ world_demo d6_demo =
      some ⟨⟨1, 1, [0], [0], some 5, CombatState.playerTurn⟩, world_demo, []⟩ ∧
    handle_combat_turn ⟨1, 1, [0], [0], some 5, CombatState.enemyTurn⟩ world_demo d6_demo =
      some ⟨⟨1, 1, [0], [0], some 5, CombatState.enemyTurn⟩, world_demo, []⟩ ∧
    process_attack_event world_demo ⟨9, 0, none, none⟩ 10 (fun _ => 1) = [] ∧
    process_damage_event world_demo ⟨9, 3, DamageType.slashing⟩ = world_demo ∧
    (Combat.roll_initiative combat_demo world_demo d6_demo).isSome = true ∧
    Combat.roll_initiative ⟨1, 1, [0, 1], [], none, CombatState.initiative⟩
      [⟨0, ⟨0, true, 1, []⟩, ⟨"H", 1, ⟨10, 10, 10, 10, 10, 10⟩, ⟨10, 10⟩, 12⟩⟩]
      d6_demo = none ∧
    perform_ai_action 5 world_demo = none :=
  ⟨missing_entity_c3_amended.1 _ world_demo d6_demo 5 rfl rfl (by decide),
   missing_entity_c3_amended.2.1 _ world_demo d6_demo 5 rfl rfl (by decide),
   missing_entity_c3_amended.2.2.1 world_demo ⟨9, 0, none, none⟩ 10 (fun _ => 1)
     (Or.inl (by decide)),
   missing_entity_c3_amended.2.2.2.1 world_demo ⟨9, 3, DamageType.slashing⟩ (by decide),
   missing_entity_c3_amended.2.2.2.2.1 combat_demo world_demo d6_demo (by decide),
   missing_entity_c3_amended.2.2.2.2.2.1 _ _ d6_demo (by decide)
     ⟨1, by decide, by decide⟩,
   missing_entity_c3_amended.2.2.2.2.2.2 5 world_demo
     ⟨0, ⟨0, true, 1, []⟩, ⟨"H", 1, ⟨10, 10, 10, 10, 10, 10⟩, ⟨10, 10⟩, 12⟩⟩
     (by decide) rfl (by decide)⟩

/-! ### C1: the combat state machine -/

/-- The first scheduling tick of the demo encounter (initiative phase). -/
def tick1_demo : TickResult :=
  (handle_combat_turn combat_demo world_demo d6_demo).getD ⟨combat_demo, world_demo, []⟩

/-- The demo store after a 1-damage event against the enemy (entity 1). -/
def world_after_damage_demo : World :=
  process_damage_event tick1_demo.world ⟨1, 1, DamageType.slashing⟩

/-- The scheduling tick that follows the lethal damage. -/
def tick2_demo : TickResult :=
  (handle_combat_turn tick1_demo.combat world_after_damage_demo d6_demo).getD
    ⟨combat_demo, world_demo, []⟩

/-- Claim C1 (code evaluation at the failing input): in the demo
encounter the enemy wins initiative, so after the first tick the current
combatant is the non-player entity 1 while the phase is `PlayerTurn` (the
claimed `EnemyTurn` transition never happens — nothing in the code ever
assigns that state); then a 1-damage event defeats the only enemy, the
player is still alive, and yet the phase after damage processing and
after a further tick is still `PlayerTurn`, not the claimed `Victory`
(damage processing cannot change the session at all — by construction it
returns only a store — and the death check in the source has an empty
body). -/
theorem combat_state_c1_code_eval :
    handle_combat_turn combat_demo world_demo d6_demo = some tick1_demo ∧
    tick1_demo.combat.state = CombatState.playerTurn ∧
    tick1_demo.combat.current_combatant = some 1 ∧
    (lookup tick1_demo.world 1).map (fun r => r.combatant.is_player) = some false ∧
    (lookup world_after_damage_demo 1).map (fun r => r.character.is_alive) = some false ∧
    (lookup world_after_damage_demo 0).map (fun r => r.character.is_alive) = some true ∧
    handle_combat_turn tick1_demo.combat world_after_damage_demo d6_demo =
      some tick2_demo ∧
    tick2_demo.combat.state = CombatState.playerTurn ∧
    tick2_demo.combat.state ≠ CombatState.victory := by
  decide

/-! ### C2: the built-in enemy action -/

/-- A demo session frozen in the enemy phase with entity 1 acting. -/
def enemy_turn_demo : Combat :=
  ⟨1, 1, [0, 1], [1, 0], some 1, CombatState.enemyTurn⟩

/-- Claim C2 (code evaluation at the failing input): the store's first
player combatant is entity 0, yet the attack event the acting enemy
(entity 1) produces targets entity 1 — the enemy itself, via
`characters.get_entity(enemy).unwrap()` — not the first player found as
the code's own comment and the claim state; the weapon is the fixed
`"sword"` and the enemy's remaining actions drop from 1 to 0. -/
theorem ai_action_c2_code_eval :
    perform_ai_action 1 world_demo = some [⟨1, 1, some "sword", none⟩] ∧
    (world_demo.find? (fun r => r.combatant.is_player)).map (fun r => r.id) = some 0 ∧
    (1 : Entity) ≠ 0 ∧
    handle_combat_turn enemy_turn_demo world_demo d6_demo =
      some ⟨enemy_turn_demo, decrement_actions world_demo 1,
        [⟨1, 1, some "sword", none⟩]⟩ ∧
    (lookup world_demo 1).map (fun r => r.combatant.actions_remaining) = some 1 ∧
    (lookup (decrement_actions world_demo 1) 1).map
      (fun r => r.combatant.actions_remaining) = some 0 := by
  decide
